import Mathlib

/-!
Verification of the goosh push-notification gateway core: a shallow
embedding of the `goosh` data model and request iterator, the `fcm` and
`apns2` provider logic, and the `worker` pool, with theorems checking the
specification's claims against the embedded code.

Conventions of the embedding:
* raw JSON payloads are opaque `String`s;
* Go `time.Time` values are `Int` timestamps in nanoseconds and
  `time.Duration` values are `Int` nanosecond counts (hence `nsPerSec`);
* Go `int`/`int64` counters are `Int` (no overflow is reachable here);
* a Go `map[string]json.RawMessage` is modelled by its frozen snapshot,
  an association list `List (String × String)`;
* fallible operations return `Option`/`Except`; a runtime panic
  (out-of-bounds index) is modelled as `none`.
-/

/-- Nanoseconds per second: Go durations are int64 nanosecond counts. -/
def nsPerSec : Int := 1000000000

namespace goosh

/-- goosh.Multiplexed: a single payload for multiple devices. -/
structure Multiplexed where
  devices : List String := []
  payload : String := ""
  deriving DecidableEq

/-- goosh.Batched: a payload for each device. Go `map[string]json.RawMessage`,
modelled as the frozen association-list snapshot of the map (key order is the
map's arbitrary-but-fixed iteration order). -/
abbrev Batched := List (String × String)

/-- goosh.FCMAuth. -/
structure FCMAuth where
  authKey : String := ""
  deriving DecidableEq

/-- goosh.APNSAuth. -/
structure APNSAuth where
  certificate : String := ""
  certificatePassword : String := ""
  sandbox : Bool := false
  deriving DecidableEq

/-- goosh.Request (the exported fields; the unexported iteration state is
`IterState`, passed explicitly). -/
structure Request where
  pushID : String := ""
  multiplexed : Option Multiplexed := none
  batched : Option Batched := none
  apnsAuth : Option APNSAuth := none
  fcmAuth : Option FCMAuth := none
  customID : String := ""
  deriving DecidableEq

/-- The unexported iterator fields of goosh.Request (`iterator`,
`batchedKeys`, `initialized`, `total`, `multiLen`), modelled as explicit
state (Go mutates them through pointer receivers). Zero values as in Go. -/
structure IterState where
  iterator : Int := 0
  batchedKeys : List String := []
  initialized : Bool := false
  total : Nat := 0
  multiLen : Nat := 0
  deriving DecidableEq

/-- The zero-valued iteration state a freshly parsed Request carries. -/
def IterState.fresh : IterState := {}

/-- goosh.Message: iterator output. -/
structure Message where
  token : String := ""
  payload : String := ""
  deriving DecidableEq

/-- goosh.Error. `retryAt` is the optional `*time.Time` in nanoseconds. -/
structure Error where
  description : String := ""
  code : Int := 0
  shouldRetry : Bool := false
  retryAt : Option Int := none
  deriving DecidableEq

/-- goosh.DeviceResponse. -/
structure DeviceResponse where
  identifier : String := ""
  delivered : Bool := false
  error : Option Error := none
  shouldRetry : Bool := false
  canonical : String := ""
  deriving DecidableEq

/-- goosh.Response. The `service` field is set by the fcm provider
(`resp.Service = "fcm"`); the goosh.go snapshot in the repository predates
it, so it is included here as the provider code uses it. -/
structure Response where
  failed : Bool := false
  error : Option Error := none
  devices : List DeviceResponse := []
  success : Int := 0
  failure : Int := 0
  pushID : String := ""
  customID : String := ""
  service : String := ""
  deriving DecidableEq

/-- goosh.Request.initialize (renamed: `initIter`): on first use, reset the
cursor to -1, snapshot the batched keys, and accumulate `total` and
`multiLen` from the multiplexed devices and the batched keys. -/
def Request.initIter (r : Request) (s : IterState) : IterState :=
  if s.initialized then s
  else
    let keys : List String :=
      match r.batched with
      | some b => b.map Prod.fst
      | none => []
    let s1 : IterState :=
      { s with iterator := -1, initialized := true, batchedKeys := keys }
    let s2 : IterState :=
      match r.multiplexed with
      | some m =>
          { s1 with total := s1.total + m.devices.length,
                    multiLen := m.devices.length }
      | none => s1
    { s2 with total := s2.total + s2.batchedKeys.length }

/-- goosh.Request.Next: initialize lazily, advance the cursor, and report
whether it is still below `total`. -/
def Request.Next (r : Request) (s : IterState) : Bool × IterState :=
  let s1 := r.initIter s
  let s2 : IterState := { s1 with iterator := s1.iterator + 1 }
  (decide (s2.iterator < (s2.total : Int)), s2)

/-- goosh.Request.Value: the zero Message past the end; the shared
multiplexed payload for cursor positions below `multiLen`; the batched
key and its map entry beyond. Go map lookup of an absent key gives the
zero value, hence `getD`. -/
def Request.Value (r : Request) (s : IterState) : Message :=
  if (s.total : Int) ≤ s.iterator then {}
  else if s.iterator < (s.multiLen : Int) then
    let m := r.multiplexed.getD {}
    { token := m.devices.getD s.iterator.toNat "", payload := m.payload }
  else
    let offi := (s.iterator - (s.multiLen : Int)).toNat
    let k := s.batchedKeys.getD offi ""
    { token := k, payload := ((r.batched.getD []).lookup k).getD "" }

/-- goosh.Request.Count: value receiver in Go — initializes a copy of the
current state and returns its `total`. -/
def Request.Count (r : Request) (s : IterState) : Nat :=
  (r.initIter s).total

/-- The outcomes of `fuel` successive Next() calls, in order. -/
def Request.nextOutcomes (r : Request) : Nat → IterState → List Bool
  | 0, _ => []
  | n + 1, s =>
    let p := r.Next s
    p.1 :: r.nextOutcomes n p.2

/-- The messages emitted by the Go loop `for r.Next() { use r.Value() }`,
run with `fuel` at least `Count + 1`. -/
def Request.iterRun (r : Request) : Nat → IterState → List Message
  | 0, _ => []
  | n + 1, s =>
    let p := r.Next s
    if p.1 then r.Value p.2 :: r.iterRun n p.2 else []

end goosh

namespace worker

/-- worker.WorkerGroup, viewed as a state machine over its `closed` flag and
the logical content of its work queue; the channels, goroutines and
WaitGroup of the Go code are scheduling machinery abstracted away. -/
structure WorkerGroup (α : Type) where
  closed : Bool := false
  workQueue : List α := []
  deriving DecidableEq

/-- worker.WorkerGroup.Enqueue: false if the group is closed; otherwise the
item is scheduled (asynchronously in Go) and true is returned. -/
def WorkerGroup.Enqueue {α : Type} (wg : WorkerGroup α) (w : α) :
    Bool × WorkerGroup α :=
  if wg.closed then (false, wg)
  else (true, { wg with workQueue := wg.workQueue ++ [w] })

/-- worker.WorkerGroup.Stop: a no-op when already closed; otherwise mark the
group closed (the Go code additionally closes channels and waits for the
workers to exit, which has no further effect on this state). -/
def WorkerGroup.Stop {α : Type} (wg : WorkerGroup α) : WorkerGroup α :=
  if wg.closed then wg
  else { wg with closed := true }

end worker

namespace fcm

/-- fcm.initialBackoff (seconds). -/
def initialBackoff : Int := 5

/-- fcm.maxBackoff (seconds). -/
def maxBackoff : Int := 300

/-- fcm.minInt. -/
def minInt (x y : Int) : Int :=
  if x < y then x else y

/-- The process-global fcm backoff state: `waitUntil` (a timestamp, ns) and
`currentWait` (seconds, int64), guarded by `backoffLock` in Go. Zero
values as at process start. -/
structure BackoffState where
  waitUntil : Int := 0
  currentWait : Int := 0
  deriving DecidableEq

/-- The 5xx branch of fcm client.push: `waitUntil = time.Now()`; then, only
when the Retry-After header is non-empty, escalate `currentWait` and add it
to `waitUntil`. Two facts of the source are preserved faithfully: the
parsed Retry-After seconds are computed but discarded (the result of
`waitUntil.Add(...)` is not assigned), and nothing at all is added when the
header is absent (the whole escalation sits inside `if retryAfter != ""`). -/
def backoff5xx (now : Int) (retryAfterHeader : String) (st : BackoffState) :
    BackoffState :=
  let waitUntil := now
  if retryAfterHeader ≠ "" then
    let currentWait :=
      if st.currentWait == 0 then initialBackoff
      else minInt (st.currentWait * 2) maxBackoff
    { waitUntil := waitUntil + currentWait * nsPerSec,
      currentWait := currentWait }
  else
    { waitUntil := waitUntil, currentWait := st.currentWait }

/-- fcm.ShouldWait: `waitUntil.After(time.Now())`. -/
def ShouldWait (now : Int) (st : BackoffState) : Bool :=
  decide (now < st.waitUntil)

/-- fcm.RetryAfter: when ShouldWait, Go returns `int(time.Now().Sub(waitUntil))`
— the duration from `waitUntil` to `now`, in nanoseconds; otherwise 0. -/
def RetryAfter (now : Int) (st : BackoffState) : Int :=
  if ShouldWait now st then now - st.waitUntil else 0

/-- fcm.result. -/
structure result where
  messageID : String := ""
  error : String := ""
  deriving DecidableEq

/-- fcm.result.OK. -/
def result.OK (r : result) : Bool :=
  r.error == ""

/-- fcm.response: the decoded FCM 200 body. -/
structure response where
  multicastID : Int := 0
  success : Int := 0
  failure : Int := 0
  canonicalIDs : Int := 0
  results : List result := []
  deriving DecidableEq

/-- The 200 branch of fcm client.push after a successful body decode: the Go
code reads `fcmRes.Results[0]` with no length check, so the model returns
`none` (the index-out-of-range panic) when `results` is empty; otherwise
the DeviceResponse built from `results[0]`. -/
def handle200 (token : String) (fcmRes : response) :
    Option goosh.DeviceResponse :=
  match fcmRes.results.get? 0 with
  | none => none
  | some r =>
    some { identifier := token,
           delivered := r.OK,
           error := if r.OK then none
                    else some { description := r.error } }

end fcm

namespace goosh

/-- The multiplexed device list of a Request (empty when `multiplexed` is
absent, matching the Go nil checks). -/
def Request.devicesOf (r : Request) : List String :=
  (r.multiplexed.getD {}).devices

/-- The shared multiplexed payload of a Request ("" when absent). -/
def Request.payloadOf (r : Request) : String :=
  (r.multiplexed.getD {}).payload

/-- The batched association list of a Request (empty when `batched` is
absent). -/
def Request.batchedList (r : Request) : Batched :=
  r.batched.getD []

/-- The result-aggregation loop shared verbatim by both providers' Process
(append each received DeviceResponse; increment `success` when it was
delivered, `failure` otherwise): the devices list, the success count and
the failure count. -/
def consumeLoop : List DeviceResponse → List DeviceResponse × Int × Int
  | [] => ([], 0, 0)
  | dr :: rest =>
    let acc := consumeLoop rest
    (dr :: acc.1,
     acc.2.1 + (if dr.delivered then 1 else 0),
     acc.2.2 + (if dr.delivered then 0 else 1))

end goosh

namespace fcm

/-- fcm.PushService.Process. The network and the worker pool are abstracted
away: `drs` is the sequence of DeviceResponses the consuming loop receives
on the results channel — one per enqueued work item, in completion order
(theorems take as hypothesis that it is a permutation of the per-message
push results). Go returns the zero Response when `r.Count() <= 0`. -/
def Process (r : goosh.Request) (drs : List goosh.DeviceResponse) :
    goosh.Response :=
  if r.Count goosh.IterState.fresh = 0 then {}
  else
    let acc := goosh.consumeLoop drs
    { devices := acc.1, pushID := r.pushID, success := acc.2.1,
      failure := acc.2.2, customID := r.customID, service := "fcm" }

end fcm

namespace apns2

/-- apns2.client (the cached per-credential client; the HTTP/2 transport and
TLS certificate are runtime objects outside the state). -/
structure client where
  cacheKey : String := ""
  production : Bool := false
  pemData : String := ""
  topic : String := ""
  deriving DecidableEq

/-- An APNS HTTP response as the code consumes it: the status code and the
`reason` field of the decoded error body. -/
structure httpResp where
  statusCode : Nat := 0
  reason : String := ""
  deriving DecidableEq

/-- The transport loop of apns2 client.Push: `attempt i` is the outcome of
the i-th `c.http.Do(req)` call (`none` = transport error; between failed
attempts the request body is re-seated and 500 ms slept, I/O effects with
no bearing on the result). Returns the number of attempts made and the
final outcome. `retries` starts at 5; the code gives up on a failure seen
when `retries <= 0`. -/
def pushAttempts (attempt : Nat → Option httpResp) :
    Nat → Nat → Nat × Option httpResp
  | retries, i =>
    match attempt i with
    | some resp => (i + 1, some resp)
    | none =>
      match retries with
      | 0 => (i + 1, none)
      | rr + 1 => pushAttempts attempt rr (i + 1)

/-- apns2 client.Push, from the transport loop on: exhausted transport
retries yield the 502 "couldn't make request to APNS" error with
`retry_at = now + 300s`; a 200 marks the device delivered; any other status
carries the decoded reason, and statuses >= 500 additionally set
`should_retry` and `retry_at = now + 300s`. Returns the attempt count with
the DeviceResponse. -/
def Push (now : Int) (attempt : Nat → Option httpResp) (m : goosh.Message) :
    Nat × goosh.DeviceResponse :=
  let out := pushAttempts attempt 5 0
  match out.2 with
  | none =>
    (out.1, { identifier := m.token,
              error := some { shouldRetry := true,
                              retryAt := some (now + 300 * nsPerSec),
                              code := 502,
                              description := "couldn't make request to APNS" } })
  | some resp =>
    if resp.statusCode == 200 then
      (out.1, { identifier := m.token, delivered := true })
    else
      (out.1, { identifier := m.token,
                error := some { code := (resp.statusCode : Int),
                                description := resp.reason,
                                shouldRetry := decide (500 ≤ resp.statusCode),
                                retryAt := if 500 ≤ resp.statusCode
                                           then some (now + 300 * nsPerSec)
                                           else none } })

/-- apns2.PushService.Process. `clientResult` is the outcome of getClient
(cache lookup / construction; `Except.error` models its non-nil Go error,
e.g. a certificate base64 decode failure). On error the source returns the
zero Response — the `// TODO: Setup response with error` in the source marks
that `failed`/`error` are never set. As in `fcm.Process`, `drs` is the
received result sequence. -/
def Process (r : goosh.Request) (clientResult : Except String client)
    (drs : List goosh.DeviceResponse) : goosh.Response :=
  if r.Count goosh.IterState.fresh = 0 then {}
  else
    match clientResult with
    | .error _ => {}
    | .ok _ =>
      let acc := goosh.consumeLoop drs
      { devices := acc.1, pushID := r.pushID, success := acc.2.1,
        failure := acc.2.2 }

end apns2

open goosh

/-- A concrete mixed Request used to instantiate hypotheses at a concrete
input: two multiplexed devices and two batched entries. -/
def sampleReq : Request :=
  { pushID := "p1", customID := "c1",
    fcmAuth := some { authKey := "k" },
    multiplexed := some { devices := ["t1", "t2"], payload := "PM" },
    batched := some [("A", "PA"), ("B", "PB")] }

/-- A concrete per-message outcome function (abstracting a provider push). -/
def samplePush : Message → DeviceResponse :=
  fun m => { identifier := m.token, delivered := m.token == "t1" }

/-- The result stream obtained by pushing every message of `sampleReq`. -/
def sampleDrs : List DeviceResponse :=
  (sampleReq.iterRun (sampleReq.Count IterState.fresh + 1)
    IterState.fresh).map samplePush

/-- A concrete APNS Request with one device and a non-empty custom_id. -/
def sampleApnsReq : Request :=
  { pushID := "p2", customID := "c2",
    apnsAuth := some { certificate := "!!!" },
    multiplexed := some { devices := ["d1"], payload := "{}" } }


section Lemmas

theorem consumeLoop_devices (l : List DeviceResponse) :
    (consumeLoop l).1 = l := by
  induction l with
  | nil => rfl
  | cons dr rest ih => simp [consumeLoop, ih]

theorem consumeLoop_success (l : List DeviceResponse) :
    (consumeLoop l).2.1 = (l.countP (fun d => d.delivered) : Int) := by
  induction l with
  | nil => rfl
  | cons dr rest ih =>
    by_cases h : dr.delivered <;>
      simp [consumeLoop, ih, List.countP_cons, h]

theorem consumeLoop_failure (l : List DeviceResponse) :
    (consumeLoop l).2.2 = (l.countP (fun d => !d.delivered) : Int) := by
  induction l with
  | nil => rfl
  | cons dr rest ih =>
    by_cases h : dr.delivered <;>
      simp [consumeLoop, ih, List.countP_cons, h]

theorem consumeLoop_sum (l : List DeviceResponse) :
    (consumeLoop l).2.1 + (consumeLoop l).2.2 = (l.length : Int) := by
  induction l with
  | nil => rfl
  | cons dr rest ih =>
    by_cases h : dr.delivered <;> simp [consumeLoop, h] <;> omega

end Lemmas

/-- C9: the worker pool viewed as a state machine: Enqueue returns false
exactly when the pool is closed (true otherwise), Stop is idempotent, and
any Enqueue after a completed Stop returns false. -/
theorem worker_pool_state_machine {α : Type} (wg : worker.WorkerGroup α)
    (w : α) :
    (wg.Enqueue w).1 = !wg.closed
    ∧ wg.Stop.Stop = wg.Stop
    ∧ (wg.Stop.Enqueue w).1 = false := by
  refine ⟨?_, ?_, ?_⟩ <;>
    cases hc : wg.closed <;>
      simp [worker.WorkerGroup.Enqueue, worker.WorkerGroup.Stop, hc]

/-- C10: the FCM 200-response handling is safe exactly when the decoded
body has at least one entry in `results`: the unchecked `Results[0]` access
is out of bounds (modelled as `none`) precisely on an empty results list,
and in particular on the concrete empty-results body. -/
theorem fcm_results_zero_index_unsafe (t : String) (body : fcm.response) :
    (fcm.handle200 t body).isSome = !body.results.isEmpty
    ∧ fcm.handle200 "tok" { results := [] } = none := by
  constructor
  · cases h : body.results <;> simp [fcm.handle200, h]
  · rfl

/-- C3 (code bug): the 5xx backoff update escalates `current_wait` only when
a Retry-After header is present. With no header, two consecutive 5xx
updates leave `current_wait` at 0 and `wait_until` at the bare current time
(no 5 then 10 second progression); and with a `Retry-After: 7` header the
parsed 7 seconds are discarded, so `wait_until` becomes `now + 5s`, not
`now + 12s`. -/
theorem fcm_backoff_not_escalated_without_header :
    (∀ n1 n2 : Int,
      (fcm.backoff5xx n2 "" (fcm.backoff5xx n1 "" {})).currentWait = 0
      ∧ (fcm.backoff5xx n2 "" (fcm.backoff5xx n1 "" {})).waitUntil = n2)
    ∧ ∀ now : Int,
      (fcm.backoff5xx now "7" {}).currentWait = 5
      ∧ (fcm.backoff5xx now "7" {}).waitUntil = now + 5 * nsPerSec := by
  constructor
  · intro n1 n2
    simp [fcm.backoff5xx]
  · intro now
    simp [fcm.backoff5xx, fcm.initialBackoff]

/-- C7 (code bug): after a 503 with `Retry-After: 7` hits the zero backoff
state at time 0, ShouldWait is true (wait_until is 5 s ahead: the 7 was
discarded), yet RetryAfter returns `now - wait_until`: minus five billion
nanoseconds, a negative value, not a non-negative count of seconds >= 12. -/
theorem fcm_retryAfter_negative :
    fcm.ShouldWait 0 (fcm.backoff5xx 0 "7" {}) = true
    ∧ fcm.RetryAfter 0 (fcm.backoff5xx 0 "7" {}) = -(5 * nsPerSec)
    ∧ fcm.RetryAfter 0 (fcm.backoff5xx 0 "7" {}) < 0 := by
  refine ⟨?_, ?_, ?_⟩ <;> decide


section IteratorLemmas

theorem initIter_of_initialized (r : Request) (s : IterState)
    (h : s.initialized = true) : r.initIter s = s := by
  simp [Request.initIter, h]

theorem initIter_fresh (r : Request) :
    r.initIter IterState.fresh
      = ⟨-1, r.batchedList.map Prod.fst, true,
         r.devicesOf.length + r.batchedList.length, r.devicesOf.length⟩ := by
  cases hm : r.multiplexed <;> cases hb : r.batched <;>
    simp [Request.initIter, IterState.fresh, Request.devicesOf,
          Request.batchedList, hm, hb]

theorem Count_fresh (r : Request) :
    r.Count IterState.fresh
      = r.devicesOf.length + r.batchedList.length := by
  simp [Request.Count, initIter_fresh]

theorem Next_state (r : Request) (bk : List String) (T M : Nat) (j : Int) :
    r.Next ⟨j, bk, true, T, M⟩
      = (decide (j + 1 < (T : Int)), ⟨j + 1, bk, true, T, M⟩) := by
  simp [Request.Next, Request.initIter]

theorem iterRun_loop (r : Request) (bk : List String) (T M : Nat) :
    ∀ (n j f : Nat), j + n = T → n ≤ f →
      r.iterRun f ⟨(j : Int) - 1, bk, true, T, M⟩
        = (List.range' j n).map
            (fun i : Nat => r.Value ⟨(i : Int), bk, true, T, M⟩) := by
  intro n
  induction n with
  | zero =>
    intro j f hj _
    cases f with
    | zero => simp [Request.iterRun]
    | succ f =>
      have hlt : ¬ ((j : Int) - 1 + 1 < (T : Int)) := by
        have hjT : j = T := by omega
        subst hjT
        omega
      simp only [Request.iterRun, Next_state]
      rw [if_neg (by simpa using hlt)]
      simp
  | succ n ih =>
    intro j f hj hf
    cases f with
    | zero => exact absurd hf (by omega)
    | succ f =>
      have e : (j : Int) - 1 + 1 = (j : Int) := by ring
      have hlt : ((j : Int) < (T : Int)) := by
        have hjT : j < T := by omega
        exact_mod_cast hjT
      rw [List.range'_succ, List.map_cons]
      simp only [Request.iterRun, Next_state, e]
      rw [if_pos (by exact decide_eq_true hlt)]
      congr 1
      have e2 : (j : Int) = ((j + 1 : Nat) : Int) - 1 := by push_cast; ring
      rw [e2]
      exact ih (j + 1) f (by omega) (by omega)

end IteratorLemmas

section IteratorLemmas2

theorem nextOutcomes_succ (r : Request) (f : Nat) (s : IterState) :
    r.nextOutcomes (f + 1) s
      = (r.Next s).1 :: r.nextOutcomes f (r.Next s).2 := rfl

theorem nextOutcomes_loop (r : Request) (bk : List String) (T M : Nat) :
    ∀ (n j : Nat), j + n = T →
      r.nextOutcomes (n + 1) ⟨(j : Int) - 1, bk, true, T, M⟩
        = List.replicate n true ++ [false] := by
  intro n
  induction n with
  | zero =>
    intro j hj
    have hlt : ¬ ((j : Int) - 1 + 1 < (T : Int)) := by
      have hjT : j = T := by omega
      subst hjT
      omega
    rw [nextOutcomes_succ, Next_state]
    simp [decide_eq_false hlt, Request.nextOutcomes]
    omega
  | succ n ih =>
    intro j hj
    have e : (j : Int) - 1 + 1 = (j : Int) := by ring
    have hlt : ((j : Int) < (T : Int)) := by
      have hjT : j < T := by omega
      exact_mod_cast hjT
    rw [nextOutcomes_succ, Next_state]
    simp only [e]
    rw [decide_eq_true hlt]
    have e2 : (j : Int) = ((j + 1 : Nat) : Int) - 1 := by push_cast; ring
    rw [e2, ih (j + 1) (by omega)]
    simp [List.replicate_succ]

theorem Next_fresh (r : Request) :
    r.Next IterState.fresh = r.Next (r.initIter IterState.fresh) := by
  conv_rhs => rw [Request.Next]
  rw [initIter_of_initialized r _ (by rw [initIter_fresh])]
  rw [Request.Next]

theorem iterRun_fresh_eq (r : Request) (f : Nat) :
    r.iterRun f IterState.fresh
      = r.iterRun f (r.initIter IterState.fresh) := by
  cases f with
  | zero => rfl
  | succ f =>
    simp only [Request.iterRun]
    rw [Next_fresh]

theorem nextOutcomes_fresh_eq (r : Request) (f : Nat) :
    r.nextOutcomes f IterState.fresh
      = r.nextOutcomes f (r.initIter IterState.fresh) := by
  cases f with
  | zero => rfl
  | succ f =>
    simp only [Request.nextOutcomes]
    rw [Next_fresh]

end IteratorLemmas2

section IteratorLemmas3

theorem Value_multi (r : Request) (bk : List String) (T M : Nat) (i : Nat)
    (hiT : i < T) (hiM : i < M) :
    r.Value ⟨(i : Int), bk, true, T, M⟩
      = { token := r.devicesOf.getD i "", payload := r.payloadOf } := by
  have h1 : ¬ ((T : Int) ≤ (i : Int)) := by exact_mod_cast Nat.not_le.mpr hiT
  have h2 : ((i : Int) < (M : Int)) := by exact_mod_cast hiM
  simp [Request.Value, h1, h2, Request.devicesOf, Request.payloadOf]

theorem Value_batched (r : Request) (bk : List String) (T M : Nat) (i : Nat)
    (hiT : i < T) (hiM : M ≤ i) :
    r.Value ⟨(i : Int), bk, true, T, M⟩
      = { token := bk.getD (i - M) "",
          payload := (r.batchedList.lookup (bk.getD (i - M) "")).getD "" } := by
  have h1 : ¬ ((T : Int) ≤ (i : Int)) := by exact_mod_cast Nat.not_le.mpr hiT
  have h2 : ¬ ((i : Int) < (M : Int)) := by exact_mod_cast Nat.not_lt.mpr hiM
  have h3 : ((i : Int) - (M : Int)).toNat = i - M := by omega
  simp [Request.Value, h1, h2, h3, Request.batchedList]

theorem map_range'_getD {α β : Type} (g : α → β) (d : α) :
    ∀ (l : List α) (s : Nat),
      (List.range' s l.length).map (fun i : Nat => g (l.getD (i - s) d))
        = l.map g := by
  intro l
  induction l with
  | nil => intro s; simp
  | cons a tl ih =>
    intro s
    rw [List.length_cons, List.range'_succ, List.map_cons, List.map_cons]
    congr 1
    · simp
    · rw [← ih (s + 1)]
      apply List.map_congr_left
      intro i hi
      have his : s + 1 ≤ i := by
        rcases List.mem_range'.1 hi with ⟨k, hk, rfl⟩
        omega
      have e : i - s = (i - (s + 1)) + 1 := by omega
      rw [e]
      simp

theorem map_keys_lookup (bl : Batched) (hnd : (bl.map Prod.fst).Nodup) :
    (bl.map Prod.fst).map
        (fun k => ({ token := k, payload := (bl.lookup k).getD "" } : Message))
      = bl.map (fun kv => { token := kv.1, payload := kv.2 }) := by
  induction bl with
  | nil => rfl
  | cons kv tl ih =>
    obtain ⟨k, v⟩ := kv
    simp only [List.map_cons] at hnd ⊢
    rw [List.nodup_cons] at hnd
    congr 1
    · simp [List.lookup_cons]
    · rw [← ih hnd.2]
      apply List.map_congr_left
      intro k' hk'
      have hne : (k' == k) = false := by
        refine beq_eq_false_iff_ne.mpr ?_
        intro heq
        exact hnd.1 (heq ▸ hk')
      simp [List.lookup_cons, hne]

end IteratorLemmas3

section IteratorAssembly

theorem iterRun_fresh_emit (r : Request) (f : Nat)
    (hf : r.devicesOf.length + r.batchedList.length ≤ f) :
    r.iterRun f IterState.fresh
      = (List.range' 0 (r.devicesOf.length + r.batchedList.length)).map
          (fun i : Nat =>
            r.Value ⟨(i : Int), r.batchedList.map Prod.fst, true,
                     r.devicesOf.length + r.batchedList.length,
                     r.devicesOf.length⟩) := by
  rw [iterRun_fresh_eq, initIter_fresh]
  have em1 : (-1 : Int) = ((0 : Nat) : Int) - 1 := by norm_num
  rw [em1]
  exact iterRun_loop r (r.batchedList.map Prod.fst)
    (r.devicesOf.length + r.batchedList.length) r.devicesOf.length
    (r.devicesOf.length + r.batchedList.length) 0 f (by omega) hf

theorem iterRun_fresh_length (r : Request) (f : Nat)
    (hf : r.Count IterState.fresh ≤ f) :
    (r.iterRun f IterState.fresh).length = r.Count IterState.fresh := by
  rw [Count_fresh] at hf ⊢
  rw [iterRun_fresh_emit r f hf, List.length_map, List.length_range']

theorem iterRun_fresh_spec (r : Request) (f : Nat)
    (hf : r.devicesOf.length + r.batchedList.length ≤ f)
    (hnd : (r.batchedList.map Prod.fst).Nodup) :
    r.iterRun f IterState.fresh
      = r.devicesOf.map (fun d => { token := d, payload := r.payloadOf })
        ++ r.batchedList.map (fun kv => { token := kv.1, payload := kv.2 }) := by
  rw [iterRun_fresh_emit r f hf]
  have hbk : (r.batchedList.map Prod.fst).length = r.batchedList.length :=
    List.length_map _ _
  have hsplit : List.range' 0 (r.devicesOf.length + r.batchedList.length)
      = List.range' 0 r.devicesOf.length
        ++ List.range' r.devicesOf.length r.batchedList.length := by
    have h0 := List.range'_append 0 r.devicesOf.length r.batchedList.length 1
    simp only [one_mul, Nat.zero_add] at h0
    rw [Nat.add_comm r.devicesOf.length r.batchedList.length]
    exact h0.symm
  rw [hsplit, List.map_append]
  congr 1
  · rw [← map_range'_getD
      (fun d => ({ token := d, payload := r.payloadOf } : Message)) ""
      r.devicesOf 0]
    apply List.map_congr_left
    intro i hi
    have hiM : i < r.devicesOf.length := by
      rcases List.mem_range'.1 hi with ⟨k, hk, rfl⟩
      omega
    rw [Value_multi r _ _ _ i (by omega) hiM]
    simp
  · rw [← map_keys_lookup r.batchedList hnd]
    rw [← hbk]
    rw [← map_range'_getD
      (fun k => ({ token := k,
                   payload := (r.batchedList.lookup k).getD "" } : Message)) ""
      (r.batchedList.map Prod.fst) r.devicesOf.length]
    apply List.map_congr_left
    intro i hi
    have hiM : r.devicesOf.length ≤ i ∧
        i < r.devicesOf.length + (r.batchedList.map Prod.fst).length := by
      rcases List.mem_range'.1 hi with ⟨k, hk, rfl⟩
      omega
    rw [Value_batched r _ _ _ i hiM.2 hiM.1]

theorem nextOutcomes_fresh_spec (r : Request) :
    r.nextOutcomes (r.Count IterState.fresh + 1) IterState.fresh
      = List.replicate (r.Count IterState.fresh) true ++ [false] := by
  rw [nextOutcomes_fresh_eq, initIter_fresh, Count_fresh]
  have em1 : (-1 : Int) = ((0 : Nat) : Int) - 1 := by norm_num
  rw [em1]
  exact nextOutcomes_loop r (r.batchedList.map Prod.fst)
    (r.devicesOf.length + r.batchedList.length) r.devicesOf.length
    (r.devicesOf.length + r.batchedList.length) 0 (by omega)

end IteratorAssembly

/-- C2: one full iteration of a Request emits each multiplexed device
exactly once, in order, paired with the shared payload, then each batched
key exactly once paired with that key's payload; Next() returns true
exactly count() times and false on the following call; a token appearing
in both multiplexed and batched is emitted once for each occurrence (no
deduplication). -/
theorem iterator_exhaustive_trace (r : Request)
    (hnd : (r.batchedList.map Prod.fst).Nodup) :
    r.iterRun (r.Count IterState.fresh + 1) IterState.fresh
      = r.devicesOf.map (fun d => { token := d, payload := r.payloadOf })
        ++ r.batchedList.map (fun kv => { token := kv.1, payload := kv.2 })
    ∧ r.nextOutcomes (r.Count IterState.fresh + 1) IterState.fresh
        = List.replicate (r.Count IterState.fresh) true ++ [false]
    ∧ ∀ tok : String,
        (r.iterRun (r.Count IterState.fresh + 1) IterState.fresh).countP
            (fun msg => msg.token == tok)
          = r.devicesOf.count tok
            + (r.batchedList.map Prod.fst).count tok := by
  have htr := iterRun_fresh_spec r (r.Count IterState.fresh + 1)
    (by rw [Count_fresh]; omega) hnd
  refine ⟨htr, nextOutcomes_fresh_spec r, ?_⟩
  intro tok
  rw [htr]
  simp only [List.countP_append, List.countP_map, List.count_eq_countP]
  congr 1

theorem iterator_exhaustive_trace_witness :
    ((sampleReq.batchedList.map Prod.fst).Nodup)
    ∧ (sampleReq.iterRun (sampleReq.Count IterState.fresh + 1) IterState.fresh
        = sampleReq.devicesOf.map
            (fun d => { token := d, payload := sampleReq.payloadOf })
          ++ sampleReq.batchedList.map
              (fun kv => { token := kv.1, payload := kv.2 })
      ∧ sampleReq.nextOutcomes (sampleReq.Count IterState.fresh + 1)
            IterState.fresh
          = List.replicate (sampleReq.Count IterState.fresh) true ++ [false]
      ∧ ∀ tok : String,
          (sampleReq.iterRun (sampleReq.Count IterState.fresh + 1)
              IterState.fresh).countP (fun msg => msg.token == tok)
            = sampleReq.devicesOf.count tok
              + (sampleReq.batchedList.map Prod.fst).count tok) :=
  ⟨by decide, iterator_exhaustive_trace sampleReq (by decide)⟩

/-- C1: for a non-empty Request whose result stream is a permutation of the
per-message push results (one DeviceResponse per produced message), both
providers' Process yields a Response with `len(devices) = count() =
multiplexed_len + batched_len` and `success + failure = len(devices)`,
where success counts exactly the delivered responses and failure the rest. -/
theorem count_conservation (r : Request) (push : Message → DeviceResponse)
    (drs : List DeviceResponse) (cli : apns2.client)
    (hperm : drs.Perm ((r.iterRun (r.Count IterState.fresh + 1)
        IterState.fresh).map push))
    (hpos : 0 < r.Count IterState.fresh) :
    ((fcm.Process r drs).devices.length = r.Count IterState.fresh
      ∧ (apns2.Process r (Except.ok cli) drs).devices.length
          = r.Count IterState.fresh)
    ∧ r.Count IterState.fresh = r.devicesOf.length + r.batchedList.length
    ∧ ((fcm.Process r drs).success + (fcm.Process r drs).failure
          = ((fcm.Process r drs).devices.length : Int)
        ∧ (apns2.Process r (Except.ok cli) drs).success
            + (apns2.Process r (Except.ok cli) drs).failure
          = ((apns2.Process r (Except.ok cli) drs).devices.length : Int))
    ∧ (fcm.Process r drs).success = (drs.countP (fun d => d.delivered) : Int)
    ∧ (fcm.Process r drs).failure
        = (drs.countP (fun d => !d.delivered) : Int) := by
  have hne : ¬ (r.Count IterState.fresh = 0) := by omega
  have hlen : drs.length = r.Count IterState.fresh := by
    rw [hperm.length_eq, List.length_map]
    exact iterRun_fresh_length r _ (by omega)
  have hsum0 := List.length_eq_countP_add_countP
    (fun d : DeviceResponse => d.delivered) drs
  simp at hsum0
  refine ⟨⟨?_, ?_⟩, Count_fresh r, ⟨?_, ?_⟩, ?_, ?_⟩ <;>
    simp [fcm.Process, apns2.Process, hne, consumeLoop_devices,
      consumeLoop_success, consumeLoop_failure, hlen]
  all_goals omega

theorem count_conservation_witness :
    sampleDrs.Perm ((sampleReq.iterRun (sampleReq.Count IterState.fresh + 1)
        IterState.fresh).map samplePush)
    ∧ 0 < sampleReq.Count IterState.fresh
    ∧ (((fcm.Process sampleReq sampleDrs).devices.length
          = sampleReq.Count IterState.fresh
        ∧ (apns2.Process sampleReq (Except.ok {}) sampleDrs).devices.length
            = sampleReq.Count IterState.fresh)
      ∧ sampleReq.Count IterState.fresh
          = sampleReq.devicesOf.length + sampleReq.batchedList.length
      ∧ ((fcm.Process sampleReq sampleDrs).success
            + (fcm.Process sampleReq sampleDrs).failure
            = ((fcm.Process sampleReq sampleDrs).devices.length : Int)
          ∧ (apns2.Process sampleReq (Except.ok {}) sampleDrs).success
              + (apns2.Process sampleReq (Except.ok {}) sampleDrs).failure
            = ((apns2.Process sampleReq (Except.ok {})
                  sampleDrs).devices.length : Int))
      ∧ (fcm.Process sampleReq sampleDrs).success
          = (sampleDrs.countP (fun d => d.delivered) : Int)
      ∧ (fcm.Process sampleReq sampleDrs).failure
          = (sampleDrs.countP (fun d => !d.delivered) : Int)) :=
  ⟨List.Perm.refl _, by decide,
   count_conservation sampleReq samplePush sampleDrs {}
     (List.Perm.refl _) (by decide)⟩

/-- C4 (code bug): when the provider client cannot be acquired (getClient
returns an error) on a non-empty Request, apns2 Process returns the zero
Response: `failed` stays false, `error` stays none and `devices` is empty —
the claimed `failed: true, error: <cause>` Response is never built (the
source's TODO comment marks the omission). -/
theorem apns_client_failure_zero_response (r : Request) (e : String)
    (drs : List DeviceResponse) (hpos : 0 < r.Count IterState.fresh) :
    apns2.Process r (Except.error e) drs = {}
    ∧ (apns2.Process r (Except.error e) drs).failed = false
    ∧ (apns2.Process r (Except.error e) drs).error = none
    ∧ (apns2.Process r (Except.error e) drs).devices = [] := by
  have hne : ¬ (r.Count IterState.fresh = 0) := by omega
  simp [apns2.Process, hne]

theorem apns_client_failure_zero_response_witness :
    0 < sampleApnsReq.Count IterState.fresh
    ∧ (apns2.Process sampleApnsReq
          (Except.error "couldn't decode apns certificate") [] = {}
      ∧ (apns2.Process sampleApnsReq
          (Except.error "couldn't decode apns certificate") []).failed = false
      ∧ (apns2.Process sampleApnsReq
          (Except.error "couldn't decode apns certificate") []).error = none
      ∧ (apns2.Process sampleApnsReq
          (Except.error "couldn't decode apns certificate") []).devices
          = []) :=
  ⟨by decide,
   apns_client_failure_zero_response sampleApnsReq
     "couldn't decode apns certificate" [] (by decide)⟩

/-- C5 fails as stated: apns2 Process does not echo custom_id (it is left
empty while the request carries "c2"), so the Response of a provider's
Process does not always carry the request's custom_id. -/
theorem provider_id_echo_counterexample :
    (apns2.Process sampleApnsReq (Except.ok {})
        [{ identifier := "d1", delivered := true }]).customID = ""
    ∧ sampleApnsReq.customID = "c2"
    ∧ ¬ ((apns2.Process sampleApnsReq (Except.ok {})
          [{ identifier := "d1", delivered := true }]).customID
        = sampleApnsReq.customID) := by
  refine ⟨rfl, rfl, ?_⟩
  decide

/-- C5 amended: on a non-empty Request, fcm Process echoes push_id and
custom_id and sets service to "fcm"; apns2 Process echoes only push_id,
leaving custom_id and service empty. -/
theorem provider_id_service_echo (r : Request)
    (drs : List DeviceResponse) (cli : apns2.client)
    (hpos : 0 < r.Count IterState.fresh) :
    (fcm.Process r drs).pushID = r.pushID
    ∧ (fcm.Process r drs).customID = r.customID
    ∧ (fcm.Process r drs).service = "fcm"
    ∧ (apns2.Process r (Except.ok cli) drs).pushID = r.pushID
    ∧ (apns2.Process r (Except.ok cli) drs).customID = ""
    ∧ (apns2.Process r (Except.ok cli) drs).service = "" := by
  have hne : ¬ (r.Count IterState.fresh = 0) := by omega
  simp [fcm.Process, apns2.Process, hne]

theorem provider_id_service_echo_witness :
    0 < sampleApnsReq.Count IterState.fresh
    ∧ ((fcm.Process sampleApnsReq []).pushID = sampleApnsReq.pushID
      ∧ (fcm.Process sampleApnsReq []).customID = sampleApnsReq.customID
      ∧ (fcm.Process sampleApnsReq []).service = "fcm"
      ∧ (apns2.Process sampleApnsReq (Except.ok {}) []).pushID
          = sampleApnsReq.pushID
      ∧ (apns2.Process sampleApnsReq (Except.ok {}) []).customID = ""
      ∧ (apns2.Process sampleApnsReq (Except.ok {}) []).service = "") :=
  ⟨by decide,
   provider_id_service_echo sampleApnsReq [] {} (by decide)⟩

/-- C6 fails as stated: an empty Request returns the zero Response, whose
push_id is "" — the request's push_id "p" is not echoed. -/
theorem empty_request_pushid_counterexample :
    ({ pushID := "p", fcmAuth := some { authKey := "k" } }
        : Request).Count IterState.fresh = 0
    ∧ (fcm.Process { pushID := "p", fcmAuth := some { authKey := "k" } }
        []).pushID = ""
    ∧ ¬ ((fcm.Process { pushID := "p", fcmAuth := some { authKey := "k" } }
        []).pushID = "p") := by
  refine ⟨rfl, rfl, ?_⟩
  decide

/-- C6 amended: a Request with count() == 0 makes both providers' Process
return immediately with the zero Response — devices empty, success 0,
failure 0, failed false, no error — and push_id empty, not echoed. -/
theorem empty_request_zero_response (r : Request)
    (drs drsA : List DeviceResponse)
    (clientResult : Except String apns2.client)
    (h : r.Count IterState.fresh = 0) :
    fcm.Process r drs = {}
    ∧ apns2.Process r clientResult drsA = {}
    ∧ (fcm.Process r drs).devices = []
    ∧ (fcm.Process r drs).success = 0
    ∧ (fcm.Process r drs).failure = 0
    ∧ (fcm.Process r drs).error = none
    ∧ (fcm.Process r drs).pushID = "" := by
  simp [fcm.Process, apns2.Process, h]

theorem empty_request_zero_response_witness :
    ({ pushID := "p", fcmAuth := some { authKey := "k" } }
        : Request).Count IterState.fresh = 0
    ∧ (fcm.Process { pushID := "p", fcmAuth := some { authKey := "k" } }
          [] = {}
      ∧ apns2.Process { pushID := "p", fcmAuth := some { authKey := "k" } }
          (Except.error "e") [] = {}
      ∧ (fcm.Process { pushID := "p", fcmAuth := some { authKey := "k" } }
          []).devices = []
      ∧ (fcm.Process { pushID := "p", fcmAuth := some { authKey := "k" } }
          []).success = 0
      ∧ (fcm.Process { pushID := "p", fcmAuth := some { authKey := "k" } }
          []).failure = 0
      ∧ (fcm.Process { pushID := "p", fcmAuth := some { authKey := "k" } }
          []).error = none
      ∧ (fcm.Process { pushID := "p", fcmAuth := some { authKey := "k" } }
          []).pushID = "") :=
  ⟨by decide,
   empty_request_zero_response
     { pushID := "p", fcmAuth := some { authKey := "k" } }
     [] [] (Except.error "e") (by decide)⟩

theorem pushAttempts_le (attempt : Nat → Option apns2.httpResp) :
    ∀ (retries i : Nat),
      (apns2.pushAttempts attempt retries i).1 ≤ i + retries + 1 := by
  intro retries
  induction retries with
  | zero =>
    intro i
    cases h : attempt i <;> simp [apns2.pushAttempts, h]
  | succ rr ih =>
    intro i
    cases h : attempt i with
    | none =>
      have := ih (i + 1)
      simp only [apns2.pushAttempts, h]
      omega
    | some resp => simp [apns2.pushAttempts, h]

/-- C8: an APNS per-device push retries transport failures at most 5
additional times (6 attempts in all); when every attempt fails at the
transport level, the push makes exactly 6 attempts and yields an
undelivered DeviceResponse whose error is code 502, description
"couldn't make request to APNS", should_retry true and
retry_at = now + 300 s. -/
theorem apns_transport_retry_exhaustion (now : Int)
    (attempt : Nat → Option apns2.httpResp) (m : Message)
    (hfail : ∀ i < 6, attempt i = none) :
    apns2.Push now attempt m
      = (6, { identifier := m.token, delivered := false,
              error := some { shouldRetry := true,
                              retryAt := some (now + 300 * nsPerSec),
                              code := 502,
                              description := "couldn't make request to APNS" } })
    ∧ ∀ attempt2 : Nat → Option apns2.httpResp,
        (apns2.pushAttempts attempt2 5 0).1 ≤ 6 := by
  constructor
  · have e0 := hfail 0 (by omega)
    have e1 := hfail 1 (by omega)
    have e2 := hfail 2 (by omega)
    have e3 := hfail 3 (by omega)
    have e4 := hfail 4 (by omega)
    have e5 := hfail 5 (by omega)
    simp [apns2.Push, apns2.pushAttempts, e0, e1, e2, e3, e4, e5]
  · intro attempt2
    have := pushAttempts_le attempt2 5 0
    omega

theorem apns_transport_retry_exhaustion_witness :
    (∀ i < 6, (fun _ : Nat => (none : Option apns2.httpResp)) i = none)
    ∧ (apns2.Push 0 (fun _ : Nat => none) { token := "d1", payload := "{}" }
        = (6, { identifier := "d1", delivered := false,
                error := some { shouldRetry := true,
                                retryAt := some (0 + 300 * nsPerSec),
                                code := 502,
                                description :=
                                  "couldn't make request to APNS" } })
      ∧ ∀ attempt2 : Nat → Option apns2.httpResp,
          (apns2.pushAttempts attempt2 5 0).1 ≤ 6) :=
  ⟨fun _ _ => rfl,
   apns_transport_retry_exhaustion 0 (fun _ => none)
     { token := "d1", payload := "{}" } (fun _ _ => rfl)⟩
